import Mathlib

/-!
Shallow embedding of the pipeline-resolution and build-polling engine of the
buildkite CLI (main.go and lib/lib.go), together with theorems checking the
specification's claims against it.

Go strings are modelled as `List Char`; all inputs relevant to the claims are
ASCII, where Go's byte-wise string operations agree with character-wise ones.
Go `int` values occurring here (scores, lengths, counts) are nonnegative and
far from overflow, and are modelled as `Nat`; `time.Time` / `time.Duration`
(int64 nanoseconds) are modelled as `Int`.
-/

/-- Convert a Lean string literal to the `List Char` model of a Go string. -/
def str (s : String) : List Char := s.data

/-- Go `strings.HasPrefix`. -/
def goStartsWith : List Char → List Char → Bool
  | _, [] => true
  | [], _ :: _ => false
  | c :: cs, p :: ps => c = p && goStartsWith cs ps

/-- Go `strings.HasSuffix`. -/
def goHasSuffix (s suf : List Char) : Bool := goStartsWith s.reverse suf.reverse

/-- Go `strings.TrimPrefix`: drops the prefix once, if present. -/
def goTrimStart (s p : List Char) : List Char :=
  if goStartsWith s p then s.drop p.length else s

/-- Go `strings.TrimSuffix`: drops the suffix once, if present. -/
def goTrimSuffix (s suf : List Char) : List Char :=
  if goHasSuffix s suf then s.take (s.length - suf.length) else s

/-- Go `unicode.IsSpace`, restricted to ASCII (no non-ASCII whitespace occurs
in the inputs considered). -/
def goIsSpace (c : Char) : Bool :=
  c = ' ' || c = '\t' || c = '\n' || c = '\r' || c = '\x0b' || c = '\x0c'

/-- Go `strings.TrimSpace`. -/
def goTrimSpace (s : List Char) : List Char :=
  ((s.dropWhile goIsSpace).reverse.dropWhile goIsSpace).reverse

/-- Go `strings.Replace(s, old, new, 1)`: replaces the first occurrence only. -/
def goReplaceOnce (s old new : List Char) : List Char :=
  if goStartsWith s old then new ++ s.drop old.length
  else
    match s with
    | [] => []
    | c :: cs => c :: goReplaceOnce cs old new

/-- Go `strings.ToLower` on one character (ASCII range, as in the inputs used). -/
def goToLowerChar (c : Char) : Char :=
  if 'A' ≤ c && c ≤ 'Z' then Char.ofNat (c.toNat + 32) else c

/-- Go `strings.ToLower`. -/
def goToLower (s : List Char) : List Char := s.map goToLowerChar

/-- Go `strings.Count(s, sep)` for a one-character separator: number of
occurrences of that character. -/
def goCountChar : List Char → Char → Nat
  | [], _ => 0
  | c :: cs, x => (if c = x then 1 else 0) + goCountChar cs x

/-- Go `strings.Split(s, sep)` for a one-character separator. -/
def goSplitChar : List Char → Char → List (List Char)
  | [], _ => [[]]
  | c :: cs, x =>
    if c = x then [] :: goSplitChar cs x
    else
      match goSplitChar cs x with
      | [] => [[c]]
      | h :: t => (c :: h) :: t

/-- Go `strings.Contains`. -/
def goContains (s sub : List Char) : Bool :=
  if goStartsWith s sub then true
  else
    match s with
    | [] => false
    | _ :: cs => goContains cs sub

/-- `min` helper from main.go (Go int; all values used here are nonnegative). -/
def goMin (a b : Nat) : Nat := if a < b then a else b

/-- `max` helper from main.go (Go int; all values used here are nonnegative). -/
def goMax (a b : Nat) : Nat := if a > b then a else b

/-- `normalizeRepo` from main.go: trim whitespace, strip one `.git` suffix, one
trailing slash, rewrite a leading `git@` (replacing the first `:` with `/`),
strip the scheme, and lowercase. The prefix/suffix checks are case-sensitive
and happen before the lowercasing, exactly as in the source. -/
def normalizeRepo (u0 : List Char) : List Char :=
  let u1 := goTrimSpace u0
  let u2 := goTrimSuffix u1 (str (".git"))
  let u3 := goTrimSuffix u2 (str ("/"))
  let u4 :=
    if goStartsWith u3 (str ("git@")) then
      goReplaceOnce (goTrimStart u3 (str ("git@"))) (str (":")) (str ("/"))
    else u3
  let u5 := goTrimStart u4 (str ("https://"))
  let u6 := goTrimStart u5 (str ("http://"))
  let u7 := goTrimStart u6 (str ("ssh://"))
  goToLower u7

/-- `sameRepo` from main.go. -/
def sameRepo (orgName slug comparison0 : List Char) : Bool :=
  let userRepo := goTrimSuffix (orgName ++ str ("/") ++ slug) (str ("/"))
  let comparison := goTrimSuffix (normalizeRepo comparison0) (str ("/"))
  (comparison == userRepo) || goHasSuffix comparison (str ("/") ++ userRepo)
    || goHasSuffix userRepo (str ("/") ++ comparison)

/-- Helper for `longestCommonSuffix`: count of equal leading characters of the
two reversed strings (the source walks both strings backwards from the end). -/
def lcsRevCount : List Char → List Char → Nat
  | a :: as, b :: bs => if a = b then lcsRevCount as bs + 1 else 0
  | _, _ => 0

/-- `longestCommonSuffix` from main.go. -/
def longestCommonSuffix (a b : List Char) : Nat := lcsRevCount a.reverse b.reverse

/-- Inner loop (over `j`) of the `levenshteinDistance` DP from main.go, filling
row `i` of the matrix for `j = 1..len b`. The carried state is `diag =
matrix[i-1][j-1]`, `left = matrix[i][j-1]`, and `rest = matrix[i-1][j..]`; each
step computes `matrix[i][j] = goMin (goMin (deletion) (insertion))
(substitution)` exactly as the Go loop body does. -/
def levRowAux (ai : Char) : List Char → Nat → Nat → List Nat → List Nat
  | [], _, _, _ => []
  | bj :: bs, diag, left, rest =>
    let up := rest.headD 0
    let cost := if ai = bj then 0 else 1
    let v := goMin (goMin (up + 1) (left + 1)) (diag + cost)
    v :: levRowAux ai bs up v rest.tail

/-- Outer loop (over `i`) of the `levenshteinDistance` DP from main.go: builds
row `i` of the matrix from row `i-1` (a row is `[matrix[i][0], ...,
matrix[i][len b]]`, and row 0 is `[0, 1, ..., len b]` as initialised by the Go
code). Only the previous row is carried, since the Go recurrence reads nothing
older. -/
def levRowsAux (b : List Char) : List Char → Nat → List Nat → List Nat
  | [], _, row => row
  | ai :: as, i, row => levRowsAux b as (i + 1) ((i + 1) :: levRowAux ai b (row.headD 0) (i + 1) row.tail)

/-- `levenshteinDistance` from main.go: the early returns for empty strings,
then `matrix[len a][len b]` of the DP table. -/
def levenshteinDistance (a b : List Char) : Nat :=
  if a.length = 0 then b.length
  else if b.length = 0 then a.length
  else (levRowsAux b a 0 (List.range (b.length + 1))).getD b.length 0

/-- `repoSimilarityScore` from main.go. Note the Go `score += max(0, 100-(editDist*100/maxLen))`
is modelled with truncated `Nat` subtraction, which agrees with the Go int
computation (`editDist*100/maxLen` is nonnegative, so the int result is negative
exactly when the Nat subtraction truncates to 0, and `max(0,·)` then yields 0). -/
def repoSimilarityScore (orgName slug repoURL : List Char) : Nat :=
  let userRepo := goTrimSuffix (orgName ++ str ("/") ++ slug) (str ("/"))
  let comparison := goTrimSuffix (normalizeRepo repoURL) (str ("/"))
  if sameRepo orgName slug repoURL then
    if comparison == userRepo then 1000
    else if goHasSuffix comparison (str ("/") ++ userRepo) then 1000
    else
      let s1 := longestCommonSuffix userRepo comparison * 5
      let s2 := if goCountChar userRepo '/' == goCountChar comparison '/' then s1 + 50 else s1
      let maxLen := if comparison.length > userRepo.length then comparison.length else userRepo.length
      if maxLen > 0 then
        s2 + goMax 0 (100 - levenshteinDistance userRepo comparison * 100 / maxLen)
      else s2
  else
    let userRepoParts := goSplitChar userRepo '/'
    let comparisonParts := goSplitChar comparison '/'
    if userRepoParts.length ≥ 2 && comparisonParts.length ≥ 2 then
      let repoName := userRepoParts.getD (userRepoParts.length - 1) []
      let candidateSlug := comparisonParts.getD (comparisonParts.length - 1) []
      if goContains candidateSlug repoName then
        let t1 := 500
        let t2 := if goHasSuffix candidateSlug repoName then t1 + 200 else t1
        let extraChars := candidateSlug.length - repoName.length
        let t3 := if extraChars ≤ 10 then t2 + (100 - extraChars * 5) else t2
        let orgLower := goToLower orgName
        let candidateOrg := goToLower (comparisonParts.getD (comparisonParts.length - 2) [])
        if orgLower == candidateOrg then t3 + 100
        else if goContains candidateOrg orgLower || goContains orgLower candidateOrg then t3 + 50
        else t3
      else 0
    else 0

/-- `ScoredSlug` from main.go: a pipeline slug with its similarity score. -/
structure ScoredSlug where
  slug : List Char
  score : Nat
deriving DecidableEq

/-- Functional rendering of the inner loop (over `j`) of the candidate sort in
`findPipelineSlugs` (used identically by Task A and Task C):

    for j := i + 1; j < len(candidates); j++ {
      if candidates[j].Score > candidates[i].Score {
        candidates[i], candidates[j] = candidates[j], candidates[i]
      }
    }

`v` is the current `candidates[i]`; scanning `candidates[i+1..]`, whenever an
element scores strictly higher the two are exchanged, so the scanned position
receives the old `v` and `v` becomes that element. Returns the final
`candidates[i]` together with the final `candidates[i+1..]`. -/
def selectMax (v : ScoredSlug) : List ScoredSlug → ScoredSlug × List ScoredSlug
  | [] => (v, [])
  | x :: xs =>
    if x.score > v.score then
      let r := selectMax x xs
      (r.1, v :: r.2)
    else
      let r := selectMax v xs
      (r.1, x :: r.2)

/-- The outer loop (over `i`) of the candidate sort in `findPipelineSlugs`,
with a fuel argument equal to the list length so the recursion is structural
(each outer iteration fixes one position and recurses on the remaining
positions; `selectMax` preserves length, so `fuel = length` always suffices
and the `0` case is only reached at the empty list). -/
def sortLoopFuel : Nat → List ScoredSlug → List ScoredSlug
  | 0, l => l
  | _ + 1, [] => []
  | fuel + 1, v :: rest =>
    let r := selectMax v rest
    r.1 :: sortLoopFuel fuel r.2

/-- The candidate sort from `findPipelineSlugs` ("Sort by score descending"). -/
def sortByScoreDesc (l : List ScoredSlug) : List ScoredSlug := sortLoopFuel l.length l

/-- Modelled from the spec: stable descending insertion of one candidate
("Ordering: descending by score; ties broken by discovery order (stable)") —
an earlier-discovered candidate stays ahead of any later candidate whose score
is not strictly larger. -/
def insertDescStable (x : ScoredSlug) : List ScoredSlug → List ScoredSlug
  | [] => [x]
  | y :: ys => if x.score ≥ y.score then x :: y :: ys else y :: insertDescStable x ys

/-- Modelled from the spec: the stable descending sort of the candidates in
discovery order. -/
def stableSortDesc : List ScoredSlug → List ScoredSlug
  | [] => []
  | x :: xs => insertDescStable x (stableSortDesc xs)

/-- One result delivered on the `results` channel of `findPipelineSlugs`
(`ResultWithCandidates`): the request type tag, whether `Error != nil`, and
the payload — scored candidates for A and C; for B, whether `CanGraphQL` is
the non-empty string "can" (`true`) or `""` (`false`). -/
inductive TaskResult where
  | A (err : Bool) (candidates : List ScoredSlug)
  | B (err : Bool) (canGraphQL : Bool)
  | C (err : Bool) (candidates : List ScoredSlug)
deriving DecidableEq

/-- The state of the consumer loop of `findPipelineSlugs`: the adopted
`allCandidates` and the `canUseGraphQL` flag. The three cancel functions only
limit which results can still arrive on the channel; they do not feed back
into the loop's state, so they are not part of it. -/
structure ConsumerState where
  allCandidates : List ScoredSlug
  canUseGraphQL : Bool
deriving DecidableEq

/-- One iteration of the `for result := range results` consumer loop of
`findPipelineSlugs`: results with `Error != nil` are skipped; a non-empty A
result is adopted (cancelling B and C); a B result with empty `CanGraphQL`
clears `canUseGraphQL` (cancelling C); a non-empty C result is adopted only
while `canUseGraphQL` still holds (cancelling A and B). -/
def consumeResult (s : ConsumerState) (r : TaskResult) : ConsumerState :=
  match r with
  | .A err cands =>
    if err then s
    else if cands.length > 0 then { s with allCandidates := cands } else s
  | .B err can =>
    if err then s
    else if can = false then { s with canUseGraphQL := false } else s
  | .C err cands =>
    if err then s
    else if cands.length > 0 && s.canUseGraphQL then { s with allCandidates := cands }
    else s

/-- The consumer loop of `findPipelineSlugs` over the delivered results in
arrival order, from the initial state (`allCandidates` nil, `canUseGraphQL`
true). -/
def runConsumer (results : List TaskResult) : ConsumerState :=
  results.foldl consumeResult ⟨[], true⟩

/-- The return value of `findPipelineSlugs`: the collected candidates if
non-empty, otherwise (`none`) the "could not find pipeline slug" error. -/
def findPipelineSlugsResult (results : List TaskResult) : Option (List ScoredSlug) :=
  let s := runConsumer results
  if s.allCandidates.length > 0 then some s.allCandidates else none

/-- A delivered result that the consumer loop never adopts as candidates: any
Task B result, any errored result, and any result carrying an empty candidate
list. -/
def nonAdoptable : TaskResult → Bool
  | .A err cands => err || cands.isEmpty
  | .B _ _ => true
  | .C err cands => err || cands.isEmpty

/-- `time.Second` in int64 nanoseconds. -/
def nsSecond : Int := 1000000000

/-- `time.Minute` in int64 nanoseconds. -/
def nsMinute : Int := 60 * nsSecond

/-- The fields of `buildkite.Build` that the polling loop reads. Times are
int64 nanoseconds since the epoch; `finishedAtValid` models
`FinishedAt.Valid` of the `types.NullTime`. -/
structure BuildM where
  number : Int
  state : List Char
  commit : List Char
  startedAt : Int
  finishedAtValid : Bool
  finishedAt : Int
deriving DecidableEq

/-- `shouldPrint` from main.go. `now` stands for the `time.Now()` call inside
the function; the `latestBuild` argument is unused in the source
(`_ = latestBuild`). -/
def shouldPrint (lastPrinted : Int) (duration : Int) (latestBuild : BuildM)
    (previousBuild : Option BuildM) (now : Int) : Bool :=
  let buildDuration : Int :=
    match previousBuild with
    | none => 5 * nsMinute
    | some pb => pb.finishedAt - pb.startedAt
  let timeRemaining := buildDuration - duration
  let durToUse : Int :=
    if timeRemaining > 25 * nsMinute then 3 * nsMinute
    else if timeRemaining > 8 * nsMinute then 2 * nsMinute
    else if timeRemaining > 5 * nsMinute then 30 * nsSecond
    else if timeRemaining > 3 * nsMinute then 20 * nsSecond
    else if timeRemaining > nsMinute then 15 * nsSecond
    else 10 * nsSecond
  decide (lastPrinted + durToUse < now)

/-- Modelled from the spec: the reference duration of the adaptive print
policy — "the previous successful build's duration on the same branch, or a
default of 5 minutes if none is available". -/
def specReferenceDuration (previousBuild : Option BuildM) : Int :=
  match previousBuild with
  | none => 5 * nsMinute
  | some pb => pb.finishedAt - pb.startedAt

/-- Modelled from the spec: the interval-to-next-print table of §4.5
(`remaining > 25min → 3min; >8min → 2min; >5min → 30s; >3min → 20s;
>1min → 15s; else 10s`). -/
def specInterval (referenceDuration elapsed : Int) : Int :=
  let remaining := referenceDuration - elapsed
  if remaining > 25 * nsMinute then 3 * nsMinute
  else if remaining > 8 * nsMinute then 2 * nsMinute
  else if remaining > 5 * nsMinute then 30 * nsSecond
  else if remaining > 3 * nsMinute then 20 * nsSecond
  else if remaining > nsMinute then 15 * nsSecond
  else 10 * nsSecond

/-- The Go error values `doWait` distinguishes. `networkErr` stands for any
error that `isHttpError` classifies as transient (url.Error-wrapped
net.OpError dial/tcp, net.DNSError, net.Error timeout); `noBuilds` is the
`errNoBuilds` sentinel; `ctxCanceled` is `ctx.Err()` of the cancelled
context; `noResultsErr` and `buildFailedErr` are the two `fmt.Errorf` results
of `doWait`; `otherErr` is any other error value. `Option GoErr` models a Go
error variable (`none` = nil). -/
inductive GoErr where
  | networkErr
  | noBuilds
  | ctxCanceled
  | noResultsErr
  | buildFailedErr
  | otherErr
deriving DecidableEq

/-- `isHttpError` from main.go, as a classification of the abstract error
values. -/
def isHttpError : GoErr → Bool
  | .networkErr => true
  | _ => false

/-- The result of one `getLatestBuild` fetch. -/
inductive Fetch where
  | fail (e : GoErr)
  | ok (b : BuildM)
deriving DecidableEq

/-- Which branch of the body of the `for !done` loop of `doWait` an iteration
executed. -/
inductive DoWaitBranch where
  | netRetry
  | noBuildsFatal
  | otherErrFatal
  | commitMismatch
  | classPassed
  | classFailed
  | classRunning
  | classOther
deriving DecidableEq

/-- Whether a branch is one of the state-classification arms of the
`switch latestBuild.State` statement. -/
def isClassBranch : DoWaitBranch → Bool
  | .classPassed => true
  | .classFailed => true
  | .classRunning => true
  | .classOther => true
  | _ => false

/-- The outcome of one loop iteration: `ret e` models `return` with the Go
error value `e` (`ret none` is `return nil`); `next lp` models reaching the
end of the iteration (or a `continue`) with throttle timestamp `lp`. -/
inductive IterOut where
  | ret (e : Option GoErr)
  | next (lastPrintedAt : Int)
deriving DecidableEq

/-- `time.Duration.Round(time.Second)` (nearest second, half away from zero)
for the nonnegative durations that occur here; `%` on nonnegative `Int`
agrees with the Go `%`. -/
def roundToSecond (d : Int) : Int :=
  let r := d % nsSecond
  if r + r < nsSecond then d - r else d + (nsSecond - r)

/-- One iteration of the `for !done` polling loop of `doWait`, after the
fetch `getLatestBuild` has produced `fetch`. `ctxDone` says whether the
surrounding cancellation context is already done when the iteration's
`select`s run; `now` stands for the `time.Now()` calls. In the
commit-mismatch branch the `select` returns the `err` variable — which is
nil there, the fetch having succeeded — exactly as in the source; in the
network-retry branch it returns the fetch error; only the final 3-second
`select` returns `ctx.Err()`. -/
def doWaitStep (ctxDone : Bool) (fetch : Fetch) (tip : List Char)
    (now lastPrintedAt : Int) (previousBuild : Option BuildM) :
    DoWaitBranch × IterOut :=
  match fetch with
  | .fail e =>
    if isHttpError e then
      (.netRetry, if ctxDone then .ret (some e) else .next now)
    else if e = .noBuilds then (.noBuildsFatal, .ret (some .noResultsErr))
    else (.otherErrFatal, .ret (some e))
  | .ok b =>
    if b.commit ≠ tip then
      (.commitMismatch, if ctxDone then .ret none else .next now)
    else
      let duration : Int :=
        if b.finishedAtValid then roundToSecond (b.finishedAt - b.startedAt)
        else roundToSecond (now - b.startedAt)
      if b.state = str ("passed") then (.classPassed, .ret none)
      else if b.state = str ("failing") ∨ b.state = str ("failed") then
        (.classFailed, .ret (some .buildFailedErr))
      else if b.state = str ("running") then
        let lp :=
          if shouldPrint lastPrintedAt duration b previousBuild now then now
          else lastPrintedAt
        (.classRunning, if ctxDone then .ret (some .ctxCanceled) else .next lp)
      else
        (.classOther, if ctxDone then .ret (some .ctxCanceled) else .next now)

/-- The polling loop of `doWait`, run for `fuel` iterations starting at
iteration index `k`; the fetch result, context state and clock of iteration
`i` are given by the streams. `none` means the loop was still running when
the fuel ran out; `some e` means `doWait` returned the Go error `e`. -/
def runWait (fetchS : Nat → Fetch) (ctxDoneS : Nat → Bool) (tip : List Char)
    (nowS : Nat → Int) (previousBuild : Option BuildM) :
    Nat → Nat → Int → Option (Option GoErr)
  | _, 0, _ => none
  | k, fuel + 1, lastPrintedAt =>
    match (doWaitStep (ctxDoneS k) (fetchS k) tip (nowS k) lastPrintedAt previousBuild).2 with
    | .ret e => some e
    | .next lp => runWait fetchS ctxDoneS tip nowS previousBuild (k + 1) fuel lp

/-- The three literal alternatives of `postCommandHookRe`
(`~~~ Running (global|local|plugin) post-command hook`). -/
def postHookAlternatives : List (List Char) :=
  [str ("~~~ Running global post-command hook"),
   str ("~~~ Running local post-command hook"),
   str ("~~~ Running plugin post-command hook")]

/-- Does any of the literal patterns match starting at the head of `l`? -/
def matchesAnyAt (l : List Char) (pats : List (List Char)) : Bool :=
  pats.any (fun p => goStartsWith l p)

/-- `postCommandHookRe.FindIndex`: the start index of the leftmost match of
the alternation of literals, or `none` if there is no match. -/
def findLeftmost (pats : List (List Char)) (l : List Char) : Option Nat :=
  if matchesAnyAt l pats then some 0
  else
    match l with
    | [] => none
    | _ :: cs => (findLeftmost pats cs).map (fun k => k + 1)

/-- `bytes.IndexByte`: index of the first occurrence of `c`, or -1. -/
def goIndexByte : List Char → Char → Int
  | [], _ => -1
  | x :: xs, c =>
    if x = c then 0
    else
      let r := goIndexByte xs c
      if r = -1 then -1 else r + 1

/-- `bytes.LastIndexByte`: index of the last occurrence of `c`, or -1. -/
def goLastIndexByte (l : List Char) (c : Char) : Int :=
  let r := goIndexByte l.reverse c
  if r = -1 then -1 else (l.length : Int) - 1 - r

/-- The alternatives of `runCommandRe`
(`~~~ Running (global command|local command|plugin command|command|commands|script|batch script)\b`). -/
def runCommandAlternatives : List (List Char) :=
  [str ("global command"), str ("local command"), str ("plugin command"),
   str ("command"), str ("commands"), str ("script"), str ("batch script")]

/-- A regexp word character (`\w`), for the `\b` boundary of `runCommandRe`. -/
def isWordChar (c : Char) : Bool :=
  ('a' ≤ c && c ≤ 'z') || ('A' ≤ c && c ≤ 'Z') || ('0' ≤ c && c ≤ '9') || c = '_'

/-- Does `runCommandRe` match starting at the head of `l`: the literal
`~~~ Running ` followed by one of the alternatives followed by a word
boundary. Every alternative ends in a word character, so `\b` holds there iff
the next character is absent or is not a word character. -/
def runCommandMatchAt (l : List Char) : Bool :=
  goStartsWith l (str ("~~~ Running ")) &&
    runCommandAlternatives.any (fun alt =>
      goStartsWith (l.drop (str ("~~~ Running ")).length) alt &&
        (match (l.drop ((str ("~~~ Running ")).length + alt.length)).head? with
         | none => true
         | some c => !isWordChar c))

/-- `runCommandRe.Match`: does the pattern match anywhere in `l`? -/
def runCommandMatch (l : List Char) : Bool :=
  if runCommandMatchAt l then true
  else
    match l with
    | [] => false
    | _ :: cs => runCommandMatch cs

/-- The `idxMatch == nil` branch of `FindBuildFailure`:

    newlineIdx := 0
    for count := 0; count < numOutputLines; count++ {
      newlineIdx = newlineIdx + 1 + bytes.IndexByte(log[newlineIdx+1:], '\n')
      if newlineIdx == -1 { return log }
    }
    return log[:newlineIdx]

`newlineIdx` is carried as `Int` exactly as in the source (it stays
nonnegative, since adding `1 + (-1)` leaves it unchanged when no further
newline exists, so the `== -1` check never fires). -/
def findNoHookLoop (log : List Char) : Nat → Int → List Char
  | 0, newlineIdx => log.take newlineIdx.toNat
  | count + 1, newlineIdx =>
    let n := newlineIdx + 1 + goIndexByte (log.drop (newlineIdx + 1).toNat) '\n'
    if n = -1 then log else findNoHookLoop log count n

/-- The code after the backward walk of the post-hook branch of
`FindBuildFailure`:

    if newlineIdx > idx { return log[:idx] }
    return log[newlineIdx:idx] -/
def findAfterBack (log : List Char) (idx newlineIdx : Nat) : List Char :=
  if newlineIdx > idx then log.take idx
  else (log.take idx).drop newlineIdx

/-- The backward walk of the post-hook branch of `FindBuildFailure`
(`newlineIdx` starts at `idx`; a `break` on a run-command marker goes to the
code modelled by `findAfterBack`):

    for count := 0; count < numOutputLines; count++ {
      newIdx := bytes.LastIndexByte(log[:newlineIdx], '\n')
      if newIdx == -1 { return log[:idx] }
      if runCommandRe.Match(log[newIdx+1 : newlineIdx]) { break }
      newlineIdx = newIdx
    } -/
def findBackLoop (log : List Char) (idx : Nat) : Nat → Nat → List Char
  | 0, newlineIdx => findAfterBack log idx newlineIdx
  | count + 1, newlineIdx =>
    let newIdx := goLastIndexByte (log.take newlineIdx) '\n'
    if newIdx = -1 then log.take idx
    else if runCommandMatch ((log.take newlineIdx).drop (newIdx.toNat + 1)) then
      findAfterBack log idx newlineIdx
    else findBackLoop log idx count newIdx.toNat

/-- `FindBuildFailure` from lib/lib.go. -/
def FindBuildFailure (log : List Char) (numOutputLines : Nat) : List Char :=
  if log = [] then log
  else
    match findLeftmost postHookAlternatives log with
    | none => findNoHookLoop log numOutputLines 0
    | some idx => findBackLoop log idx numOutputLines idx
/-- Modelled from the spec: the composite score formula of §4.2 step 2 —
`5 × longestCommonSuffix(userRepo, candidate)` plus `50` if both have the same
number of "/"-separated segments, plus
`max(0, 100 − 100×levenshtein(userRepo, candidate)/max(len(userRepo), len(candidate)))`
(the subtraction truncates at zero in `Nat`, which is exactly the `max(0, ·)`). -/
def specCompositeScore (userRepo comparison : List Char) : Nat :=
  5 * longestCommonSuffix userRepo comparison
    + (if (goSplitChar userRepo '/').length = (goSplitChar comparison '/').length then 50 else 0)
    + max 0 (100 - 100 * levenshteinDistance userRepo comparison
        / max userRepo.length comparison.length)

/-- A concrete running build (used to instantiate theorems about the loop). -/
def sampleRunningBuild : BuildM := ⟨7, str ("running"), str ("aaa"), 0, false, 0⟩

/-- A concrete queued build whose commit equals the tip `"tip0"`. -/
def sampleQueuedBuild : BuildM := ⟨8, str ("queued"), str ("tip0"), 0, false, 0⟩

/-- A concrete canceled build whose commit equals the tip `"tipc"`. -/
def sampleCanceledBuild : BuildM := ⟨9, str ("canceled"), str ("tipc"), 0, false, 0⟩

/-- A concrete build whose commit `"zzz"` differs from the tip `"tip0"`. -/
def sampleMismatchBuild : BuildM := ⟨10, str ("running"), str ("zzz"), 0, false, 0⟩

theorem selectMax_length (v : ScoredSlug) (s : List ScoredSlug) :
    (selectMax v s).2.length = s.length := by
  induction s generalizing v with
  | nil => rfl
  | cons x xs ih => simp only [selectMax]; split <;> simp [ih]

theorem selectMax_perm (v : ScoredSlug) (s : List ScoredSlug) :
    List.Perm ((selectMax v s).1 :: (selectMax v s).2) (v :: s) := by
  induction s generalizing v with
  | nil => exact List.Perm.refl _
  | cons x xs ih =>
    simp only [selectMax]
    split
    · exact (List.Perm.swap v (selectMax x xs).1 (selectMax x xs).2).trans
        ((ih x).cons v)
    · exact ((List.Perm.swap x (selectMax v xs).1 (selectMax v xs).2).trans
        ((ih v).cons x)).trans (List.Perm.swap v x xs)

theorem selectMax_score_ge (v : ScoredSlug) (s : List ScoredSlug) :
    ∀ x ∈ v :: s, x.score ≤ (selectMax v s).1.score := by
  induction s generalizing v with
  | nil =>
    intro x hx
    rw [List.mem_singleton] at hx
    exact hx ▸ Nat.le_refl _
  | cons y ys ih =>
    intro x hx
    simp only [selectMax]
    rcases List.mem_cons.mp hx with hxv | hx'
    · rw [hxv]
      split
      · exact Nat.le_trans (Nat.le_of_lt (by assumption))
          (ih y y (List.mem_cons_self y ys))
      · exact ih v v (List.mem_cons_self v ys)
    · rcases List.mem_cons.mp hx' with hxy | hx''
      · rw [hxy]
        split
        · exact ih y y (List.mem_cons_self y ys)
        · exact Nat.le_trans (Nat.not_lt.mp (by assumption))
            (ih v v (List.mem_cons_self v ys))
      · split
        · exact ih y x (List.mem_cons_of_mem y hx'')
        · exact ih v x (List.mem_cons_of_mem v hx'')

theorem sortLoopFuel_spec (fuel : Nat) :
    ∀ l : List ScoredSlug, l.length ≤ fuel →
      List.Perm (sortLoopFuel fuel l) l ∧
      List.Pairwise (fun a b => b.score ≤ a.score) (sortLoopFuel fuel l) := by
  induction fuel with
  | zero =>
    intro l hl
    have hnil : l = [] := List.length_eq_zero.mp (Nat.le_zero.mp hl)
    subst hnil
    exact ⟨List.Perm.refl _, List.Pairwise.nil⟩
  | succ n ih =>
    intro l hl
    match l with
    | [] => exact ⟨List.Perm.refl _, List.Pairwise.nil⟩
    | v :: rest =>
      simp only [sortLoopFuel]
      have hlen : (selectMax v rest).2.length ≤ n := by
        rw [selectMax_length]
        simpa using hl
      obtain ⟨ihp, ihs⟩ := ih _ hlen
      refine ⟨(ihp.cons _).trans (selectMax_perm v rest), ?_⟩
      rw [List.pairwise_cons]
      refine ⟨?_, ihs⟩
      intro b hb
      have hb2 : b ∈ (selectMax v rest).2 := ihp.mem_iff.mp hb
      have hbv : b ∈ v :: rest :=
        (selectMax_perm v rest).mem_iff.mp (List.mem_cons_of_mem _ hb2)
      exact selectMax_score_ge v rest b hbv

theorem goSplitChar_length (l : List Char) (c : Char) :
    (goSplitChar l c).length = goCountChar l c + 1 := by
  induction l with
  | nil => rfl
  | cons x xs ih =>
    simp only [goSplitChar, goCountChar]
    split
    · simp only [List.length_cons, ih]; omega
    · cases hsp : goSplitChar xs c with
      | nil => rw [hsp] at ih; simp at ih
      | cons h t => rw [hsp] at ih; simpa using ih

theorem consumeResult_nonAdoptable (s : ConsumerState) (r : TaskResult)
    (h : nonAdoptable r = true) :
    (consumeResult s r).allCandidates = s.allCandidates := by
  cases r with
  | A err cands =>
    simp only [nonAdoptable, Bool.or_eq_true, List.isEmpty_iff] at h
    rcases h with h | h
    · simp [consumeResult, h]
    · subst h; simp [consumeResult]
  | B err can =>
    simp only [consumeResult]
    split
    · rfl
    · split <;> rfl
  | C err cands =>
    simp only [nonAdoptable, Bool.or_eq_true, List.isEmpty_iff] at h
    rcases h with h | h
    · simp [consumeResult, h]
    · subst h; simp [consumeResult]

theorem foldl_nonAdoptable (l : List TaskResult) (s : ConsumerState)
    (h : ∀ r ∈ l, nonAdoptable r = true) :
    (l.foldl consumeResult s).allCandidates = s.allCandidates := by
  induction l generalizing s with
  | nil => rfl
  | cons r rs ih =>
    rw [List.foldl_cons, ih _ (fun x hx => h x (List.mem_cons_of_mem r hx)),
      consumeResult_nonAdoptable s r (h r (List.mem_cons_self r rs))]

theorem canUse_false_step (s : ConsumerState) (r : TaskResult)
    (h : s.canUseGraphQL = false) : (consumeResult s r).canUseGraphQL = false := by
  cases r <;> simp only [consumeResult] <;> split <;> try assumption
  all_goals split <;> simp [h]

theorem canUse_false_foldl (l : List TaskResult) (s : ConsumerState)
    (h : s.canUseGraphQL = false) :
    (l.foldl consumeResult s).canUseGraphQL = false := by
  induction l generalizing s with
  | nil => exact h
  | cons r rs ih => exact ih _ (canUse_false_step s r h)

theorem consumeResult_C_skip (s : ConsumerState) (err : Bool)
    (cands : List ScoredSlug) (h : s.canUseGraphQL = false) :
    consumeResult s (TaskResult.C err cands) = s := by
  simp [consumeResult, h]

theorem doWaitStep_nonterminal (b : BuildM) (tip : List Char)
    (now lastPrintedAt : Int) (previousBuild : Option BuildM)
    (hc : b.commit = tip)
    (h1 : b.state ≠ str ("passed")) (h2 : b.state ≠ str ("failed"))
    (h3 : b.state ≠ str ("failing")) :
    ∃ lp, (doWaitStep false (Fetch.ok b) tip now lastPrintedAt previousBuild).2 = .next lp := by
  simp only [doWaitStep]
  rw [if_neg (by simp [hc])]
  rw [if_neg h1, if_neg (not_or.mpr ⟨h3, h2⟩)]
  by_cases hr : b.state = str ("running")
  · rw [if_pos hr]
    exact ⟨_, rfl⟩
  · rw [if_neg hr]
    exact ⟨now, rfl⟩

/-- C7: counterexample — `normalizeRepo "GIT@GitHub.com:User/Repo.GIT"` does
not return `"github.com/user/repo"`: the `git@` prefix test and the `.git`
suffix test are case-sensitive and run before the lowercasing, so neither
fires on the upper-case input. -/
theorem C7_normalizeRepo_cex :
    normalizeRepo (str ("GIT@GitHub.com:User/Repo.GIT")) ≠ str ("github.com/user/repo") := by
  decide

/-- C7 (amended): `normalizeRepo "GIT@GitHub.com:User/Repo.GIT"` returns
`"git@github.com:user/repo.git"` — only the final lowercasing applies, since
the case-sensitive `git@`/`.git` checks happen before it and do not match. -/
theorem C7_normalizeRepo_upper :
    normalizeRepo (str ("GIT@GitHub.com:User/Repo.GIT")) = str ("git@github.com:user/repo.git") := by
  decide

/-- C9: `FindBuildFailure` on the log `"hello"` (which contains no
post-command-hook marker and has fewer than 5 newline-delimited lines) returns
the empty slice instead of the whole log: the loop's `newlineIdx == -1`
whole-log return is unreachable because `newlineIdx + 1 + (-1)` absorbs the
`-1` of `bytes.IndexByte`. -/
theorem C9_failing_eval :
    FindBuildFailure (str ("hello")) 5 = []
    ∧ str ("hello") ≠ ([] : List Char)
    ∧ findLeftmost postHookAlternatives (str ("hello")) = none := by
  refine ⟨by decide, by decide, by decide⟩

/-- C6: with the cancellation context already done, the 5-second
commit-mismatch wait returns nil (the stale fetch `err`) and the 2-second
network-retry wait returns the network error — neither returns the context's
cancellation error; only the final 3-second inter-iteration select (here
reached through the default state branch) returns `ctx.Err()`. -/
theorem C6_cancellation_return_values :
    (doWaitStep true (Fetch.ok sampleMismatchBuild) (str ("tip0")) 0 0 none).2 = .ret none
    ∧ (doWaitStep true (Fetch.fail .networkErr) (str ("tip0")) 0 0 none).2
        = .ret (some .networkErr)
    ∧ (doWaitStep true (Fetch.ok sampleQueuedBuild) (str ("tip0")) 0 0 none).2
        = .ret (some .ctxCanceled)
    ∧ (IterOut.ret none ≠ IterOut.ret (some .ctxCanceled))
    ∧ (IterOut.ret (some .networkErr) ≠ IterOut.ret (some .ctxCanceled)) := by
  refine ⟨by decide, by decide, by decide, by decide, by decide⟩

/-- C8: counterexample — for candidates discovered in the order
`[a1 (score 2), b1 (score 2), c1 (score 3)]` the exchange sort of
`findPipelineSlugs` produces `[c1, b1, a1]`: the equal-score pair `(a1, b1)`
comes out in reversed discovery order, so the result differs from the stable
descending sort `[c1, a1, b1]`. -/
theorem C8_sort_not_stable_cex :
    sortByScoreDesc [⟨str ("a1"), 2⟩, ⟨str ("b1"), 2⟩, ⟨str ("c1"), 3⟩]
      = [⟨str ("c1"), 3⟩, ⟨str ("b1"), 2⟩, ⟨str ("a1"), 2⟩]
    ∧ stableSortDesc [⟨str ("a1"), 2⟩, ⟨str ("b1"), 2⟩, ⟨str ("c1"), 3⟩]
      = [⟨str ("c1"), 3⟩, ⟨str ("a1"), 2⟩, ⟨str ("b1"), 2⟩]
    ∧ sortByScoreDesc [⟨str ("a1"), 2⟩, ⟨str ("b1"), 2⟩, ⟨str ("c1"), 3⟩]
      ≠ stableSortDesc [⟨str ("a1"), 2⟩, ⟨str ("b1"), 2⟩, ⟨str ("c1"), 3⟩] := by
  refine ⟨by decide, by decide, by decide⟩

/-- C8 (amended): the candidate list delivered by Task A / Task C is a
permutation of the positive-score candidates in discovery order whose scores
are non-increasing; equal-score candidates are not guaranteed to keep their
discovery order (the double-loop exchange sort is unstable). -/
theorem C8_sort_desc_perm (l : List ScoredSlug) :
    List.Perm (sortByScoreDesc l) l
    ∧ List.Pairwise (fun a b => b.score ≤ a.score) (sortByScoreDesc l) := by
  have h := sortLoopFuel_spec l.length l (Nat.le_refl _)
  simpa [sortByScoreDesc] using h

/-- C5: in any iteration of the `doWait` poll loop whose fetched build's
commit differs from the target tip, the commit-mismatch branch executes and
none of the state-classification branches does — classification is reached
only when the fetched commit equals the tip. -/
theorem C5_no_classification_on_mismatch (ctxDone : Bool) (b : BuildM)
    (tip : List Char) (now lastPrintedAt : Int) (previousBuild : Option BuildM)
    (h : b.commit ≠ tip) :
    (doWaitStep ctxDone (Fetch.ok b) tip now lastPrintedAt previousBuild).1 = .commitMismatch
    ∧ isClassBranch (doWaitStep ctxDone (Fetch.ok b) tip now lastPrintedAt previousBuild).1
        = false := by
  simp only [doWaitStep]
  rw [if_pos h]
  exact ⟨rfl, rfl⟩

/-- C5: witness — a concrete iteration with commit `"zzz"` and tip `"tip0"`. -/
theorem C5_no_classification_on_mismatch_witness :
    sampleMismatchBuild.commit ≠ str ("tip0")
    ∧ ((doWaitStep false (Fetch.ok sampleMismatchBuild) (str ("tip0")) 0 0 none).1
          = .commitMismatch
      ∧ isClassBranch (doWaitStep false (Fetch.ok sampleMismatchBuild) (str ("tip0")) 0 0 none).1
          = false) :=
  ⟨by decide,
    C5_no_classification_on_mismatch false sampleMismatchBuild (str ("tip0")) 0 0 none (by decide)⟩

/-- C3: counterexample — with no previous build the reference duration is 5
minutes, so at elapsed 0 the interval is 20 seconds; at `now` exactly
`lastPrinted + interval` the claim's `now ≥ lastPrinted + interval` holds but
`shouldPrint` returns false (the source tests `lastPrinted.Add(dur).Before(now)`,
which is strict). -/
theorem C3_shouldPrint_cex :
    shouldPrint 0 0 sampleRunningBuild none (20 * nsSecond) = false
    ∧ specInterval (specReferenceDuration none) 0 = 20 * nsSecond
    ∧ (20 * nsSecond : Int) ≥ 0 + 20 * nsSecond := by
  refine ⟨by decide, by decide, by decide⟩

/-- C3 (amended): `shouldPrint` uses the reference duration (previous build's
`finishedAt − startedAt`, or 5 minutes when none) and the spec's interval
table, and returns true exactly when `now` is strictly after
`lastPrinted + interval`. -/
theorem C3_shouldPrint_iff (lastPrinted duration : Int) (latestBuild : BuildM)
    (previousBuild : Option BuildM) (now : Int) :
    shouldPrint lastPrinted duration latestBuild previousBuild now = true
      ↔ lastPrinted + specInterval (specReferenceDuration previousBuild) duration < now := by
  cases previousBuild <;>
    simp [shouldPrint, specInterval, specReferenceDuration]

/-- C4: once Task B has (without error) reported that the GraphQL endpoint is
not capable, a Task C result delivered at any later point leaves the whole
consumer run unchanged — C's candidates are never adopted, for every arrival
order in which B's report precedes C's result. -/
theorem C4_C_after_incapable_B (pre mid post : List TaskResult) (err : Bool)
    (cands : List ScoredSlug) :
    runConsumer (pre ++ TaskResult.B false false :: (mid ++ TaskResult.C err cands :: post))
      = runConsumer (pre ++ TaskResult.B false false :: (mid ++ post)) := by
  unfold runConsumer
  rw [List.foldl_append, List.foldl_cons, List.foldl_append, List.foldl_cons,
    List.foldl_append, List.foldl_cons]
  rw [consumeResult_C_skip _ err cands
    (canUse_false_foldl mid _ (by simp [consumeResult]))]
  rw [List.foldl_append]

/-- C1: counterexample — with arrival order (Task A delivers a non-empty list,
then Task C delivers a non-empty list while `canUseGraphQL` is still set), the
final returned candidate list is C's, not A's: the later C result overwrites
A's adopted candidates. -/
theorem C1_A_overwritten_cex :
    findPipelineSlugsResult
        [TaskResult.A false [⟨str ("pa"), 5⟩], TaskResult.C false [⟨str ("pc"), 7⟩]]
      = some [⟨str ("pc"), 7⟩]
    ∧ (⟨str ("pc"), 7⟩ : ScoredSlug) ≠ ⟨str ("pa"), 5⟩ := by
  refine ⟨by decide, by decide⟩

/-- C1 (amended): if Task A delivers a non-empty candidate list, it is adopted
at that point and is the final returned list provided every result delivered
afterwards is non-adoptable — any Task B result, any errored result, and any
empty candidate list; in particular Task B results never alter it. (A
non-errored, non-empty Task C result delivered afterwards while the capability
flag is still set would replace the list — see the counterexample.) -/
theorem C1_A_nonempty_final (pre post : List TaskResult) (cands : List ScoredSlug)
    (hne : cands ≠ [])
    (hpost : ∀ r ∈ post, nonAdoptable r = true) :
    findPipelineSlugsResult (pre ++ TaskResult.A false cands :: post) = some cands := by
  have hall : (runConsumer (pre ++ TaskResult.A false cands :: post)).allCandidates = cands := by
    unfold runConsumer
    rw [List.foldl_append, List.foldl_cons, foldl_nonAdoptable post _ hpost]
    simp [consumeResult, List.length_pos.mpr hne]
  simp only [findPipelineSlugsResult, hall]
  rw [if_pos (List.length_pos.mpr hne)]

/-- C1: witness — B reports capable first, A delivers a non-empty list, then an
errored C result arrives; A's single candidate is the final result. -/
theorem C1_A_nonempty_final_witness :
    ([⟨str ("pa"), 5⟩] ≠ ([] : List ScoredSlug))
    ∧ (∀ r ∈ [TaskResult.C true [⟨str ("pc"), 9⟩]], nonAdoptable r = true)
    ∧ findPipelineSlugsResult
        ([TaskResult.B false true] ++ TaskResult.A false [⟨str ("pa"), 5⟩]
          :: [TaskResult.C true [⟨str ("pc"), 9⟩]])
      = some [⟨str ("pa"), 5⟩] :=
  ⟨by decide, by decide,
    C1_A_nonempty_final [TaskResult.B false true] [TaskResult.C true [⟨str ("pc"), 9⟩]]
      [⟨str ("pa"), 5⟩] (by decide) (by decide)⟩

/-- C10: if the context is never done and every fetch returns a build whose
commit equals the tip and whose state is none of "passed", "failed" and
"failing", then the `doWait` loop never returns, however many iterations it
runs: such states (e.g. "canceled" or "queued") are not terminal and the loop
has no iteration limit. -/
theorem C10_nonterminal_never_returns (fetchS : Nat → Fetch) (ctxDoneS : Nat → Bool)
    (tip : List Char) (nowS : Nat → Int) (previousBuild : Option BuildM)
    (hdone : ∀ k, ctxDoneS k = false)
    (hfetch : ∀ k, ∃ b, fetchS k = Fetch.ok b ∧ b.commit = tip
      ∧ b.state ≠ str ("passed") ∧ b.state ≠ str ("failed") ∧ b.state ≠ str ("failing")) :
    ∀ fuel k lastPrintedAt,
      runWait fetchS ctxDoneS tip nowS previousBuild k fuel lastPrintedAt = none := by
  intro fuel
  induction fuel with
  | zero => intro k lp; rfl
  | succ n ih =>
    intro k lp
    obtain ⟨b, hb, hc, h1, h2, h3⟩ := hfetch k
    obtain ⟨lp2, hstep⟩ := doWaitStep_nonterminal b tip (nowS k) lp previousBuild hc h1 h2 h3
    rw [runWait, hb, hdone k, hstep]
    exact ih (k + 1) lp2

/-- C10: witness — a build stuck in state "canceled" at the tip commit, with
the context never done: after 5 iterations the loop is still running. -/
theorem C10_nonterminal_never_returns_witness :
    runWait (fun _ => Fetch.ok sampleCanceledBuild) (fun _ => false) (str ("tipc"))
      (fun _ => 0) none 0 5 0 = none :=
  C10_nonterminal_never_returns (fun _ => Fetch.ok sampleCanceledBuild) (fun _ => false)
    (str ("tipc")) (fun _ => 0) none (fun _ => rfl)
    (fun _ => ⟨sampleCanceledBuild, rfl, rfl, by decide, by decide, by decide⟩) 5 0 0

/-- C2 (amended): for every input passing the same-repo test, the score is
1000 exactly when the normalized, slash-trimmed candidate equals
`orgName ++ "/" ++ slug` (slash-trimmed) OR ends with `"/"` followed by it;
only otherwise is the composite formula
`5×lcs + 50 (equal segment counts) + max(0, 100 − 100×lev/maxLen)` returned. -/
theorem C2_repoSimilarityScore_formula (orgName slug repoURL : List Char)
    (h : sameRepo orgName slug repoURL = true) :
    repoSimilarityScore orgName slug repoURL =
      (if goTrimSuffix (normalizeRepo repoURL) (str ("/"))
            = goTrimSuffix (orgName ++ str ("/") ++ slug) (str ("/"))
          ∨ goHasSuffix (goTrimSuffix (normalizeRepo repoURL) (str ("/")))
              (str ("/") ++ goTrimSuffix (orgName ++ str ("/") ++ slug) (str ("/"))) = true
       then 1000
       else specCompositeScore
              (goTrimSuffix (orgName ++ str ("/") ++ slug) (str ("/")))
              (goTrimSuffix (normalizeRepo repoURL) (str ("/")))) := by
  simp only [repoSimilarityScore]
  rw [if_pos h]
  set userRepo := goTrimSuffix (orgName ++ str ("/") ++ slug) (str ("/")) with hu
  set comparison := goTrimSuffix (normalizeRepo repoURL) (str ("/")) with hc
  by_cases h1 : comparison = userRepo
  · rw [if_pos (Or.inl h1)]
    simp [h1]
  · by_cases h2 : goHasSuffix comparison (str ("/") ++ userRepo) = true
    · rw [if_pos (Or.inr h2)]
      simp [h1, h2]
    · rw [if_neg (by simp [h1, h2])]
      have hbeq : (comparison == userRepo) = false := by
        simp [h1]
      simp only [hbeq, Bool.false_eq_true, if_false, h2, if_neg]
      simp only [h1, or_false, if_false]
      have hmaxpos : (if comparison.length > userRepo.length then comparison.length
          else userRepo.length) > 0 := by
        by_cases hun : userRepo = []
        · have hcp : 0 < comparison.length :=
            List.length_pos.mpr (fun hcnil => h1 (hcnil.trans hun.symm))
          split <;> omega
        · have hup2 : 0 < userRepo.length := List.length_pos.mpr hun
          split <;> omega
      rw [if_pos hmaxpos]
      have hmaxeq : (if comparison.length > userRepo.length then comparison.length
          else userRepo.length) = max userRepo.length comparison.length := by
        split <;> omega
      rw [hmaxeq]
      rw [Nat.mul_comm (levenshteinDistance userRepo comparison) 100]
      have hgm : ∀ a : Nat, goMax 0 a = max 0 a := by
        intro a; simp [goMax]
      rw [hgm]
      unfold specCompositeScore
      rw [goSplitChar_length, goSplitChar_length]
      generalize longestCommonSuffix userRepo comparison = L
      generalize max 0 (100 - 100 * levenshteinDistance userRepo comparison
        / max userRepo.length comparison.length) = M
      by_cases hcnt : goCountChar userRepo '/' = goCountChar comparison '/'
      · rw [if_pos (by simp [hcnt]), if_pos (by omega)]
        omega
      · rw [if_neg (by simp [hcnt]), if_neg (by omega)]
        omega

set_option maxRecDepth 4000 in
/-- C2: counterexample — `repoSimilarityScore "myorg" "myrepo"
"github.com/myorg/myrepo"` returns 1000 although the normalized candidate
`github.com/myorg/myrepo` does not equal `myorg/myrepo` (it only ends with
`/myorg/myrepo`), and the claim's composite formula gives 113 ≠ 1000 there:
"returns 1000 exactly when the normalized candidate equals orgName/slug" is
false. -/
theorem C2_repoSimilarityScore_cex :
    repoSimilarityScore (str ("myorg")) (str ("myrepo")) (str ("github.com/myorg/myrepo")) = 1000
    ∧ goTrimSuffix (normalizeRepo (str ("github.com/myorg/myrepo"))) (str ("/"))
        ≠ goTrimSuffix (str ("myorg") ++ str ("/") ++ str ("myrepo")) (str ("/"))
    ∧ specCompositeScore
        (goTrimSuffix (str ("myorg") ++ str ("/") ++ str ("myrepo")) (str ("/")))
        (goTrimSuffix (normalizeRepo (str ("github.com/myorg/myrepo"))) (str ("/"))) ≠ 1000 := by
  refine ⟨by decide, by decide, by decide⟩

/-- C2: witness — the same-repo test holds for org "gh/a", slug "b",
candidate "a/b" (a composite-branch input), and the score evaluates to 65 via
the formula (lcs 3 → 15; unequal segment counts → no 50; levenshtein 3 of
maxLen 6 → 50). -/
theorem C2_repoSimilarityScore_formula_witness :
    sameRepo (str ("gh/a")) (str ("b")) (str ("a/b")) = true
    ∧ repoSimilarityScore (str ("gh/a")) (str ("b")) (str ("a/b")) = 65 := by
  refine ⟨by decide, ?_⟩
  rw [C2_repoSimilarityScore_formula (str ("gh/a")) (str ("b")) (str ("a/b")) (by decide)]
  decide
